import Mathlib

/-
Verification of the x86_64 relocation-relaxation core of the wild linker.

The embedding below translates `libwild/src/x86_64.rs` (the Decider
`Relaxation::new`, the PLT emitter `write_plt_entry`) and
`linker-utils/src/x86_64.rs` (the Rewriter `RelaxationKind::apply`).

Machine integers are modelled as `Nat` with explicit wrapping (`% 2 ^ 64`)
where the source's `u64`/`usize` arithmetic wraps in release builds.
A slice access that Rust would abort on (out-of-bounds indexing) is
modelled by the `Res.oob` result; the checked accessors (`slice::get`)
are modelled by `Option`-returning helpers.
-/

set_option maxRecDepth 10000

namespace Wild

/- ELF x86_64 relocation type numbers (`object::elf` constants). -/

def R_X86_64_NONE : Nat := 0

def R_X86_64_PC32 : Nat := 2

def R_X86_64_PLT32 : Nat := 4

def R_X86_64_GOTPCREL : Nat := 9

def R_X86_64_32 : Nat := 10

def R_X86_64_TLSGD : Nat := 19

def R_X86_64_TLSLD : Nat := 20

def R_X86_64_GOTTPOFF : Nat := 22

def R_X86_64_TPOFF32 : Nat := 23

def R_X86_64_GOTOFF64 : Nat := 25

def R_X86_64_PLTOFF64 : Nat := 31

def R_X86_64_GOTPCRELX : Nat := 41

def R_X86_64_REX_GOTPCRELX : Nat := 42

/-- One more than the largest `u64`/`usize` value. -/
def U64 : Nat := 2 ^ 64

/-- Wrapping 64-bit addition, as performed on `u64`/`usize` in release builds. -/
def wadd (a b : Nat) : Nat := (a + b) % U64

/-- Wrapping 64-bit subtraction, as performed on `u64`/`usize` in release builds. -/
def wsub (a b : Nat) : Nat := (a + (U64 - b % U64)) % U64

/-- Fuel-bounded binary AND, `band a b = Nat.land a b` for arguments below `2 ^ 64`. -/
def bandAux : Nat → Nat → Nat → Nat
  | 0, _, _ => 0
  | f + 1, a, b => min (a % 2) (b % 2) + 2 * bandAux f (a / 2) (b / 2)

/-- Binary AND on byte values (used for the REX/ModRM bit manipulations). -/
def band (a b : Nat) : Nat := bandAux 64 a b

/-- Fuel-bounded binary OR. -/
def borAux : Nat → Nat → Nat → Nat
  | 0, _, _ => 0
  | f + 1, a, b => max (a % 2) (b % 2) + 2 * borAux f (a / 2) (b / 2)

/-- Binary OR on byte values. -/
def bor (a b : Nat) : Nat := borAux 64 a b

/-- Result of running a piece of Rust code that may abort: `oob` models a
fatal out-of-bounds slice access, `ok` a normal return. -/
inductive Res (α : Type) where
  | oob : Res α
  | ok : α → Res α
deriving DecidableEq

/-- `slice.get(a..b)` on a byte slice: `some` of the sub-slice when
`a ≤ b ∧ b ≤ len`, otherwise `none`. -/
def sliceGet (bytes : List Nat) (a b : Nat) : Option (List Nat) :=
  if a ≤ b ∧ b ≤ bytes.length then some ((bytes.drop a).take (b - a)) else none

/-- Indexed store `bytes[i] = v`; `none` models the out-of-bounds abort. -/
def setChecked (bytes : List Nat) (i v : Nat) : Option (List Nat) :=
  if i < bytes.length then some (bytes.set i v) else none

/-- `bytes[a..b].copy_from_slice(src)`; `none` models the abort when the
range is invalid or the lengths disagree. -/
def writeRange (bytes : List Nat) (a b : Nat) (src : List Nat) : Option (List Nat) :=
  if a ≤ b ∧ b ≤ bytes.length ∧ src.length = b - a then
    some (bytes.take a ++ src ++ bytes.drop b)
  else none

/-- ValueFlags bits consulted by the Decider (`crate::resolution::ValueFlags`). -/
structure ValueFlags where
  address : Bool
  absolute : Bool
  dynamic : Bool
  can_bypass_got : Bool
  ifunc : Bool
deriving DecidableEq

/-- Modelled from the spec: `OutputKind` (defined in `crate::args`, outside the
given sources) is consulted only through its predicates `is_relocatable` and
`is_executable`; we model it by those two booleans. -/
structure OutputKind where
  is_relocatable : Bool
  is_executable : Bool
deriving DecidableEq

/-- Modelled from the spec: of `SectionFlags` only the `EXECINSTR` bit is
consulted, so we model the flag set by that single bit. -/
structure SectionFlags where
  execinstr : Bool
deriving DecidableEq

/-- RelocationModifier: directive cell read by the outer writer. -/
inductive RelocationModifier where
  | Normal
  | SkipNextRelocation
deriving DecidableEq

/-- The relaxation kinds of `linker-utils/src/x86_64.rs`. -/
inductive RelaxationKind where
  | MovIndirectToLea
  | MovIndirectToAbsolute
  | RexMovIndirectToAbsolute
  | RexSubIndirectToAbsolute
  | RexCmpIndirectToAbsolute
  | CallIndirectToRelative
  | NoOp
  | TlsGdToLocalExec
  | TlsGdToLocalExecLarge
  | TlsLdToLocalExec
  | TlsGdToInitialExec
deriving DecidableEq

/-- Output of the Decider. The source stores `rel_info : RelocationKindInfo`,
derived from the raw replacement relocation type by the static table
`relocation_kind_and_size` (outside the given sources); we record the raw
replacement type `new_r_type` itself. -/
structure Relaxation where
  kind : RelaxationKind
  new_r_type : Nat
deriving DecidableEq

/-- Case analysis on an optional value: `optCase o d f` runs `f` on the
contents of `o` and falls back to `d` when `o` is empty. It models the two
ways the source consumes a failed probe: an unchecked index passes
`d = Res.oob` (abort), a checked `get(..)?` passes `d = Res.ok none`
(early `None` return). -/
def optCase {β α : Type} (o : Option β) (d : Res α) (f : β → Res α) : Res α :=
  match o with
  | none => d
  | some x => f x

/-- The two recognized TLS-GD instruction forms (`TlsGdForm` in the source). -/
inductive TlsGdForm where
  | Regular
  | Large
deriving DecidableEq

/-- `TlsGdForm::identify` from `libwild/src/x86_64.rs`: checked byte-context
probes around `offset`; the `offset - 4` / `offset - 3` subtractions wrap. -/
def TlsGdForm.identify (bytes : List Nat) (offset : Nat) : Option TlsGdForm :=
  if sliceGet bytes (wsub offset 4) offset = some [0x66, 0x48, 0x8d, 0x3d] ∧
      sliceGet bytes (wadd offset 4) (wadd offset 8) = some [0x66, 0x66, 0x48, 0xe8] then
    some .Regular
  else if sliceGet bytes (wsub offset 3) offset = some [0x48, 0x8d, 0x3d] ∧
      sliceGet bytes (wadd offset 4) (wadd offset 6) = some [0x48, 0xb8] ∧
      sliceGet bytes (wadd offset 14) (wadd offset 19) = some [0x48, 0x01, 0xd8, 0xff, 0xd0] then
    some .Large
  else
    none

/-- The Decider: `Relaxation::new` from `libwild/src/x86_64.rs`. The nested
`create` helper of the source looks the replacement type up in the relocation
table and unwraps; the spec states that lookup succeeds for every replacement
type used here (a failure would be an internal bug), so `create` is modelled
as the plain pair constructor. `Res.oob` marks the unchecked indexing aborts
of the `R_X86_64_REX_GOTPCRELX` arm; an `Option` probe that fails behind `?`
yields `Res.ok none` exactly as in the source. -/
def Relaxation.new (relocation_kind : Nat) (section_bytes : List Nat)
    (offset_in_section : Nat) (value_flags : ValueFlags) (output_kind : OutputKind)
    (section_flags : SectionFlags) : Res (Option Relaxation) :=
  let is_known_address := value_flags.address
  let is_absolute := value_flags.absolute && !value_flags.dynamic
  let non_relocatable := !output_kind.is_relocatable
  let is_absolute_address := is_known_address && non_relocatable
  let can_bypass_got := value_flags.can_bypass_got
  if value_flags.ifunc then
    if relocation_kind = R_X86_64_PC32 then
      .ok (some ⟨.NoOp, R_X86_64_PLT32⟩)
    else
      .ok none
  else if !section_flags.execinstr then
    .ok none
  else
    let offset := offset_in_section % U64
    if relocation_kind = R_X86_64_REX_GOTPCRELX then
      if offset < 3 then .ok none
      else
        optCase (section_bytes.get? (offset - 2)) .oob fun b1 =>
          optCase (section_bytes.get? (offset - 3)) .oob fun rex =>
            if rex ≠ 0x48 ∧ rex ≠ 0x4c then .ok none
            else if is_absolute || is_absolute_address then
              if b1 = 0x8b then .ok (some ⟨.RexMovIndirectToAbsolute, R_X86_64_32⟩)
              else if b1 = 0x2b then .ok (some ⟨.RexSubIndirectToAbsolute, R_X86_64_32⟩)
              else if b1 = 0x3b then .ok (some ⟨.RexCmpIndirectToAbsolute, R_X86_64_32⟩)
              else .ok none
            else if can_bypass_got then
              if b1 = 0x8b then .ok (some ⟨.MovIndirectToLea, R_X86_64_PC32⟩)
              else .ok none
            else .ok none
    else if relocation_kind = R_X86_64_GOTPCRELX then
      let tail : Res (Option Relaxation) :=
        if can_bypass_got then
          optCase (sliceGet section_bytes (wsub offset 2) offset) (.ok none) fun s =>
            if s = [0xff, 0x15] then .ok (some ⟨.CallIndirectToRelative, R_X86_64_PC32⟩)
            else .ok none
        else .ok none
      if is_absolute || is_absolute_address then
        optCase (section_bytes.get? (wsub offset 2)) (.ok none) fun b =>
          if b = 0x8b then .ok (some ⟨.MovIndirectToAbsolute, R_X86_64_32⟩) else tail
      else tail
    else if relocation_kind = R_X86_64_GOTPCREL ∧ can_bypass_got = true ∧ 2 ≤ offset then
      optCase (section_bytes.get? (offset - 2)) (.ok none) fun b =>
        if b = 0x8b then .ok (some ⟨.MovIndirectToLea, R_X86_64_PC32⟩) else .ok none
    else if relocation_kind = R_X86_64_GOTTPOFF ∧ can_bypass_got = true then
      optCase (sliceGet section_bytes (wsub offset 3) (wsub offset 1)) (.ok none) fun s =>
        if s = [0x48, 0x8b] ∨ s = [0x4c, 0x8b] then
          .ok (some ⟨.RexMovIndirectToAbsolute, R_X86_64_TPOFF32⟩)
        else .ok none
    else if relocation_kind = R_X86_64_PLT32 ∧ can_bypass_got = true then
      .ok (some ⟨.NoOp, R_X86_64_PC32⟩)
    else if relocation_kind = R_X86_64_PLTOFF64 ∧ can_bypass_got = true then
      .ok (some ⟨.NoOp, R_X86_64_GOTOFF64⟩)
    else if relocation_kind = R_X86_64_TLSGD ∧ can_bypass_got = true ∧
        output_kind.is_executable = true then
      optCase (TlsGdForm.identify section_bytes offset) (.ok none) fun form =>
        match form with
        | .Regular => .ok (some ⟨.TlsGdToLocalExec, R_X86_64_TPOFF32⟩)
        | .Large => .ok (some ⟨.TlsGdToLocalExecLarge, R_X86_64_TPOFF32⟩)
    else if relocation_kind = R_X86_64_TLSGD ∧ output_kind.is_executable = true then
      optCase (TlsGdForm.identify section_bytes offset) (.ok none) fun form =>
        match form with
        | .Regular => .ok (some ⟨.TlsGdToInitialExec, R_X86_64_GOTTPOFF⟩)
        | .Large => .ok none
    else if relocation_kind = R_X86_64_TLSLD ∧ output_kind.is_executable = true then
      optCase (sliceGet section_bytes (wsub offset 3) offset) (.ok none) fun s =>
        if s = [0x48, 0x8d, 0x3d] then .ok (some ⟨.TlsLdToLocalExec, R_X86_64_NONE⟩)
        else .ok none
    else .ok none

/-- The mutable state threaded through `RelaxationKind::apply`: the section's
code bytes, the offset cell, the addend cell and the next-relocation cell. -/
structure ApplyState where
  section_bytes : List Nat
  offset_in_section : Nat
  addend : Nat
  next_modifier : RelocationModifier
deriving DecidableEq

/-- Shared body of the three `Rex*IndirectToAbsolute` arms of
`RelaxationKind::apply` (the source repeats it verbatim with a different
opcode byte and ModRM OR-mask): read the REX byte at `offset - 3`, move
REX.R into REX.B, store the opcode at `offset - 2` and rewrite the ModRM
byte at `offset - 1` to register-direct form; the addend is zeroed. -/
def rexToAbs (opcode orMask : Nat) (offset : Nat) (s : ApplyState) : Res ApplyState :=
  optCase (s.section_bytes.get? (wsub offset 3)) .oob fun rex =>
    optCase
        (setChecked s.section_bytes (wsub offset 3) (bor (band rex 0xfb) (band rex 4 / 4)))
        .oob fun bs1 =>
      optCase (setChecked bs1 (wsub offset 2) opcode) .oob fun bs2 =>
        optCase (bs2.get? (wsub offset 1)) .oob fun mod_rm =>
          optCase (setChecked bs2 (wsub offset 1) (bor (band (mod_rm / 8) 0x7) orMask))
              .oob fun bs3 =>
            .ok { s with section_bytes := bs3, addend := 0 }

/-- The cast `let offset = *offset_in_section as usize` at the head of
`RelaxationKind::apply`. -/
def ApplyState.uoff (s : ApplyState) : Nat := s.offset_in_section % U64

/-- The Rewriter: `RelaxationKind::apply` from `linker-utils/src/x86_64.rs`.
Every unchecked slice access of the source is modelled by an `oob`-producing
helper; the `offset - k` index computations wrap as `usize` arithmetic does,
and `s.uoff` is the source's local `offset`. -/
def RelaxationKind.apply : RelaxationKind → ApplyState → Res ApplyState
  | .MovIndirectToLea, s =>
    optCase (setChecked s.section_bytes (wsub s.uoff 2) 0x8d) .oob fun bs =>
      .ok { s with section_bytes := bs }
  | .MovIndirectToAbsolute, s =>
    optCase (setChecked s.section_bytes (wsub s.uoff 2) 0xc7) .oob fun bs =>
      optCase (bs.get? (wsub s.uoff 1)) .oob fun mod_rm =>
        optCase (setChecked bs (wsub s.uoff 1) (bor (band (mod_rm / 8) 0x7) 0xc0))
            .oob fun bs2 =>
          .ok { s with section_bytes := bs2, addend := 0 }
  | .RexMovIndirectToAbsolute, s => rexToAbs 0xc7 0xc0 s.uoff s
  | .RexSubIndirectToAbsolute, s => rexToAbs 0x81 0xe8 s.uoff s
  | .RexCmpIndirectToAbsolute, s => rexToAbs 0x81 0xf8 s.uoff s
  | .CallIndirectToRelative, s =>
    optCase (writeRange s.section_bytes (wsub s.uoff 2) s.uoff [0x67, 0xe8]) .oob fun bs =>
      .ok { s with section_bytes := bs }
  | .TlsGdToLocalExec, s =>
    optCase (writeRange s.section_bytes (wsub s.uoff 4) (wadd s.uoff 8)
        [0x64, 0x48, 0x8b, 0x04, 0x25, 0, 0, 0, 0, 0x48, 0x8d, 0x80]) .oob fun bs =>
      .ok { s with
        section_bytes := bs
        offset_in_section := wadd s.offset_in_section 8
        addend := 0
        next_modifier := .SkipNextRelocation }
  | .TlsGdToLocalExecLarge, s =>
    optCase (writeRange s.section_bytes (wsub s.uoff 3) (wadd s.uoff 19)
        [0x64, 0x48, 0x8b, 0x04, 0x25, 0, 0, 0, 0,
         0x48, 0x8d, 0x80, 0, 0, 0, 0,
         0x66, 0x0f, 0x1f, 0x44, 0, 0]) .oob fun bs =>
      .ok { s with
        section_bytes := bs
        offset_in_section := wadd s.offset_in_section 9
        addend := 0
        next_modifier := .SkipNextRelocation }
  | .TlsGdToInitialExec, s =>
    optCase (writeRange s.section_bytes (wsub s.uoff 4) (wadd s.uoff 8)
        [0x64, 0x48, 0x8b, 0x04, 0x25, 0, 0, 0, 0, 0x48, 0x03, 0x05]) .oob fun bs =>
      .ok { s with
        section_bytes := bs
        offset_in_section := wadd s.offset_in_section 8
        addend := U64 - 12
        next_modifier := .SkipNextRelocation }
  | .TlsLdToLocalExec, s =>
    if sliceGet s.section_bytes (wadd s.uoff 4) (wadd s.uoff 6) = some [0x48, 0xb8] then
      optCase (writeRange s.section_bytes (wsub s.uoff 3) (wadd s.uoff 19)
          [0x66, 0x66, 0x66, 0x66, 0x2e, 0x0f, 0x1f, 0x84, 0, 0, 0, 0, 0,
           0x64, 0x48, 0x8b, 0x04, 0x25, 0, 0, 0, 0]) .oob fun bs =>
        .ok { s with
          section_bytes := bs
          offset_in_section := wadd s.offset_in_section 15
          next_modifier := .SkipNextRelocation }
    else
      optCase (writeRange s.section_bytes (wsub s.uoff 3) (wadd s.uoff 9)
          [0x66, 0x66, 0x66, 0x64, 0x48, 0x8b, 0x04, 0x25, 0, 0, 0, 0]) .oob fun bs =>
        .ok { s with
          section_bytes := bs
          offset_in_section := wadd s.offset_in_section 5
          next_modifier := .SkipNextRelocation }
  | .NoOp, s => .ok s

/-- The single error kind surfaced by `write_plt_entry` (spec kind
`PltGotTooFar`, source message "PLT is more than 2GiB away from GOT"). -/
inductive PltError where
  | PltGotTooFar
deriving DecidableEq

instance {ε α : Type} [DecidableEq ε] [DecidableEq α] : DecidableEq (Except ε α) := fun x y =>
  match x, y with
  | .error e, .error f =>
    if h : e = f then .isTrue (by rw [h]) else .isFalse (by simp [h])
  | .error _, .ok _ => .isFalse (by simp)
  | .ok _, .error _ => .isFalse (by simp)
  | .ok a, .ok b =>
    if h : a = b then .isTrue (by rw [h]) else .isFalse (by simp [h])

/-- PLT_ENTRY_TEMPLATE from `libwild/src/x86_64.rs`: endbr64, bnd jmp
through the GOT, and a 5-byte NOP; 16 bytes in total. -/
def PLT_ENTRY_TEMPLATE : List Nat :=
  [0xf3, 0x0f, 0x1e, 0xfa, 0xf2, 0xff, 0x25, 0x0, 0x0, 0x0, 0x0, 0x0f, 0x1f, 0x44, 0x0, 0x0]

/-- Little-endian byte decomposition of a 32-bit value. -/
def leBytes4 (u : Nat) : List Nat :=
  [u % 256, u / 256 % 256, u / 65536 % 256, u / 16777216 % 256]

/-- `write_plt_entry` from `libwild/src/x86_64.rs`: copies the template into
the 16-byte buffer (any other length aborts in `copy_from_slice`), computes
the wrapped displacement `got_address.wrapping_sub(plt_address + 0xb)`
reinterpreted as `i64`, errors with `PltGotTooFar` when it does not fit an
`i32`, and otherwise patches its little-endian bytes into positions 7..11. -/
def write_plt_entry (plt_entry : List Nat) (got_address plt_address : Nat) :
    Res (Except PltError (List Nat)) :=
  if plt_entry.length = 16 then
    let w := wsub got_address (wadd plt_address 0xb)
    let v : Int := if w < 2 ^ 63 then (w : Int) else (w : Int) - 2 ^ 64
    if -2 ^ 31 ≤ v ∧ v < 2 ^ 31 then
      .ok (.ok (PLT_ENTRY_TEMPLATE.take 7 ++ leBytes4 (v % 2 ^ 32).toNat ++
        PLT_ENTRY_TEMPLATE.drop 11))
    else
      .ok (.error .PltGotTooFar)
  else .oob

/-- Reading four bytes of a buffer starting at index `i` back as a
little-endian signed 32-bit integer (spec-side decoder for the round-trip
property). -/
def readI32LE (b : List Nat) (i : Nat) : Int :=
  let u := b.getD i 0 + 256 * b.getD (i + 1) 0 + 65536 * b.getD (i + 2) 0 +
    16777216 * b.getD (i + 3) 0
  if u < 2 ^ 31 then (u : Int) else (u : Int) - 2 ^ 32

/-- The canonical signed 64-bit value congruent to `got − plt − 0xb`
modulo `2 ^ 64`: the displacement `write_plt_entry` works with, stated
independently of the code's branch structure. -/
def signedDisp (got plt : Nat) : Int :=
  ((got : Int) - (plt : Int) - 0xb + 2 ^ 63) % 2 ^ 64 - 2 ^ 63

/-- Valid-subtraction form of `wsub`: when no wrapping occurs it is plain
truncated subtraction. -/
theorem wsub_eq_sub (a b : Nat) (ha : a < U64) (hb : b ≤ a) : wsub a b = a - b := by
  unfold wsub U64 at *
  omega

/-- Valid-addition form of `wadd`: when no wrapping occurs it is plain addition. -/
theorem wadd_eq_add (a b : Nat) (h : a + b < U64) : wadd a b = a + b := by
  unfold wadd U64 at *
  omega

theorem optCase_ok {β α : Type} {o : Option β} {d : Res α} {f : β → Res α} {r : α}
    (h : optCase o d f = .ok r) :
    (o = none ∧ d = .ok r) ∨ ∃ x, o = some x ∧ f x = .ok r := by
  cases o with
  | none => exact .inl ⟨rfl, h⟩
  | some x => exact .inr ⟨x, rfl, h⟩

theorem rexToAbs_ok (op om off : Nat) (s s' : ApplyState)
    (h : rexToAbs op om off s = .ok s') :
    ∃ bs, s' = { s with section_bytes := bs, addend := 0 } := by
  unfold rexToAbs at h
  rcases optCase_ok h with ⟨-, h⟩ | ⟨rex, -, h⟩
  · exact absurd h (by simp)
  rcases optCase_ok h with ⟨-, h⟩ | ⟨bs1, -, h⟩
  · exact absurd h (by simp)
  rcases optCase_ok h with ⟨-, h⟩ | ⟨bs2, -, h⟩
  · exact absurd h (by simp)
  rcases optCase_ok h with ⟨-, h⟩ | ⟨mr, -, h⟩
  · exact absurd h (by simp)
  rcases optCase_ok h with ⟨-, h⟩ | ⟨bs3, -, h⟩
  · exact absurd h (by simp)
  exact ⟨bs3, (Res.ok.inj h).symm⟩

theorem movLea_ok (s s' : ApplyState)
    (h : RelaxationKind.apply .MovIndirectToLea s = .ok s') :
    ∃ bs, s' = { s with section_bytes := bs } := by
  rw [show RelaxationKind.apply .MovIndirectToLea s =
      optCase (setChecked s.section_bytes (wsub s.uoff 2) 0x8d) .oob
        (fun bs => .ok { s with section_bytes := bs }) from rfl] at h
  rcases optCase_ok h with ⟨-, h⟩ | ⟨bs, -, h⟩
  · exact absurd h (by simp)
  · exact ⟨bs, (Res.ok.inj h).symm⟩

theorem movAbs_ok (s s' : ApplyState)
    (h : RelaxationKind.apply .MovIndirectToAbsolute s = .ok s') :
    ∃ bs, s' = { s with section_bytes := bs, addend := 0 } := by
  rw [show RelaxationKind.apply .MovIndirectToAbsolute s =
      optCase (setChecked s.section_bytes (wsub s.uoff 2) 0xc7) .oob (fun bs =>
        optCase (bs.get? (wsub s.uoff 1)) .oob fun mod_rm =>
          optCase (setChecked bs (wsub s.uoff 1) (bor (band (mod_rm / 8) 0x7) 0xc0))
              .oob fun bs2 =>
            .ok { s with section_bytes := bs2, addend := 0 }) from rfl] at h
  rcases optCase_ok h with ⟨-, h⟩ | ⟨bs, -, h⟩
  · exact absurd h (by simp)
  rcases optCase_ok h with ⟨-, h⟩ | ⟨mr, -, h⟩
  · exact absurd h (by simp)
  rcases optCase_ok h with ⟨-, h⟩ | ⟨bs2, -, h⟩
  · exact absurd h (by simp)
  exact ⟨bs2, (Res.ok.inj h).symm⟩

theorem callRel_ok (s s' : ApplyState)
    (h : RelaxationKind.apply .CallIndirectToRelative s = .ok s') :
    ∃ bs, s' = { s with section_bytes := bs } := by
  rw [show RelaxationKind.apply .CallIndirectToRelative s =
      optCase (writeRange s.section_bytes (wsub s.uoff 2) s.uoff [0x67, 0xe8]) .oob
        (fun bs => .ok { s with section_bytes := bs }) from rfl] at h
  rcases optCase_ok h with ⟨-, h⟩ | ⟨bs, -, h⟩
  · exact absurd h (by simp)
  · exact ⟨bs, (Res.ok.inj h).symm⟩

theorem tlsGdLE_ok (s s' : ApplyState)
    (h : RelaxationKind.apply .TlsGdToLocalExec s = .ok s') :
    ∃ bs, s' = { s with
      section_bytes := bs
      offset_in_section := wadd s.offset_in_section 8
      addend := 0
      next_modifier := .SkipNextRelocation } := by
  rw [show RelaxationKind.apply .TlsGdToLocalExec s =
      optCase (writeRange s.section_bytes (wsub s.uoff 4) (wadd s.uoff 8)
        [0x64, 0x48, 0x8b, 0x04, 0x25, 0, 0, 0, 0, 0x48, 0x8d, 0x80]) .oob (fun bs =>
      .ok { s with
        section_bytes := bs
        offset_in_section := wadd s.offset_in_section 8
        addend := 0
        next_modifier := .SkipNextRelocation }) from rfl] at h
  rcases optCase_ok h with ⟨-, h⟩ | ⟨bs, -, h⟩
  · exact absurd h (by simp)
  · exact ⟨bs, (Res.ok.inj h).symm⟩

theorem tlsGdLELarge_ok (s s' : ApplyState)
    (h : RelaxationKind.apply .TlsGdToLocalExecLarge s = .ok s') :
    ∃ bs, s' = { s with
      section_bytes := bs
      offset_in_section := wadd s.offset_in_section 9
      addend := 0
      next_modifier := .SkipNextRelocation } := by
  rw [show RelaxationKind.apply .TlsGdToLocalExecLarge s =
      optCase (writeRange s.section_bytes (wsub s.uoff 3) (wadd s.uoff 19)
        [0x64, 0x48, 0x8b, 0x04, 0x25, 0, 0, 0, 0,
         0x48, 0x8d, 0x80, 0, 0, 0, 0,
         0x66, 0x0f, 0x1f, 0x44, 0, 0]) .oob (fun bs =>
      .ok { s with
        section_bytes := bs
        offset_in_section := wadd s.offset_in_section 9
        addend := 0
        next_modifier := .SkipNextRelocation }) from rfl] at h
  rcases optCase_ok h with ⟨-, h⟩ | ⟨bs, -, h⟩
  · exact absurd h (by simp)
  · exact ⟨bs, (Res.ok.inj h).symm⟩

theorem tlsGdIE_ok (s s' : ApplyState)
    (h : RelaxationKind.apply .TlsGdToInitialExec s = .ok s') :
    ∃ bs, s' = { s with
      section_bytes := bs
      offset_in_section := wadd s.offset_in_section 8
      addend := U64 - 12
      next_modifier := .SkipNextRelocation } := by
  rw [show RelaxationKind.apply .TlsGdToInitialExec s =
      optCase (writeRange s.section_bytes (wsub s.uoff 4) (wadd s.uoff 8)
        [0x64, 0x48, 0x8b, 0x04, 0x25, 0, 0, 0, 0, 0x48, 0x03, 0x05]) .oob (fun bs =>
      .ok { s with
        section_bytes := bs
        offset_in_section := wadd s.offset_in_section 8
        addend := U64 - 12
        next_modifier := .SkipNextRelocation }) from rfl] at h
  rcases optCase_ok h with ⟨-, h⟩ | ⟨bs, -, h⟩
  · exact absurd h (by simp)
  · exact ⟨bs, (Res.ok.inj h).symm⟩

theorem tlsLd_ok (s s' : ApplyState)
    (h : RelaxationKind.apply .TlsLdToLocalExec s = .ok s') :
    ∃ bs n, s' = { s with
      section_bytes := bs
      offset_in_section := wadd s.offset_in_section n
      next_modifier := .SkipNextRelocation } := by
  rw [show RelaxationKind.apply .TlsLdToLocalExec s =
      (if sliceGet s.section_bytes (wadd s.uoff 4) (wadd s.uoff 6) = some [0x48, 0xb8] then
        optCase (writeRange s.section_bytes (wsub s.uoff 3) (wadd s.uoff 19)
            [0x66, 0x66, 0x66, 0x66, 0x2e, 0x0f, 0x1f, 0x84, 0, 0, 0, 0, 0,
             0x64, 0x48, 0x8b, 0x04, 0x25, 0, 0, 0, 0]) .oob fun bs =>
          .ok { s with
            section_bytes := bs
            offset_in_section := wadd s.offset_in_section 15
            next_modifier := .SkipNextRelocation }
      else
        optCase (writeRange s.section_bytes (wsub s.uoff 3) (wadd s.uoff 9)
            [0x66, 0x66, 0x66, 0x64, 0x48, 0x8b, 0x04, 0x25, 0, 0, 0, 0]) .oob fun bs =>
          .ok { s with
            section_bytes := bs
            offset_in_section := wadd s.offset_in_section 5
            next_modifier := .SkipNextRelocation }) from rfl] at h
  split at h <;>
    (rcases optCase_ok h with ⟨-, h⟩ | ⟨bs, -, h⟩
     · exact absurd h (by simp)
     · exact ⟨bs, _, (Res.ok.inj h).symm⟩)

theorem noOp_ok (s s' : ApplyState)
    (h : RelaxationKind.apply .NoOp s = .ok s') : s' = s :=
  (Res.ok.inj h).symm

theorem readI32LE_leBytes4 (pre post : List Nat) (x : Nat) (hpre : pre.length = 7)
    (hx : x < 2 ^ 32) :
    readI32LE (pre ++ (leBytes4 x ++ post)) 7 =
      if x < 2 ^ 31 then (x : Int) else (x : Int) - 2 ^ 32 := by
  have hrest : leBytes4 x ++ post =
      x % 256 :: x / 256 % 256 :: x / 65536 % 256 :: x / 16777216 % 256 :: post := rfl
  have h7 : (pre ++ (leBytes4 x ++ post)).getD 7 0 = x % 256 := by
    rw [List.getD_append_right _ _ _ _ (by omega), hpre, hrest]
    rfl
  have h8 : (pre ++ (leBytes4 x ++ post)).getD 8 0 = x / 256 % 256 := by
    rw [List.getD_append_right _ _ _ _ (by omega), hpre, hrest]
    rfl
  have h9 : (pre ++ (leBytes4 x ++ post)).getD 9 0 = x / 65536 % 256 := by
    rw [List.getD_append_right _ _ _ _ (by omega), hpre, hrest]
    rfl
  have h10 : (pre ++ (leBytes4 x ++ post)).getD 10 0 = x / 16777216 % 256 := by
    rw [List.getD_append_right _ _ _ _ (by omega), hpre, hrest]
    rfl
  unfold readI32LE
  rw [h7, h8, h9, h10]
  have hux : x % 256 + 256 * (x / 256 % 256) + 65536 * (x / 65536 % 256) +
      16777216 * (x / 16777216 % 256) = x := by omega
  rw [hux]

end Wild

namespace Wild

/-- C1: refuted by the code — the claim asserts that whenever the Decider
returns a relaxation, the Rewriter performs only in-bounds accesses on the
same bytes and offset. For `R_X86_64_TLSLD` on `[0x48, 0x8d, 0x3d]` at
offset 3 the Decider verifies only `bytes[offset-3..offset]` and returns
`TlsLdToLocalExec`, yet `apply` then writes `bytes[offset-3..offset+9]`,
nine bytes past the end of the section, an out-of-bounds abort. -/
theorem c1_rewriter_oob_after_tlsld_decision :
    Relaxation.new R_X86_64_TLSLD [0x48, 0x8d, 0x3d] 3
      ⟨false, false, false, false, false⟩ ⟨false, true⟩ ⟨true⟩ =
      .ok (some ⟨.TlsLdToLocalExec, R_X86_64_NONE⟩) ∧
    RelaxationKind.apply .TlsLdToLocalExec ⟨[0x48, 0x8d, 0x3d], 3, 0, .Normal⟩ =
      .oob := by
  decide

/-- C2: refuted by the code — the claim asserts the Decider is total and
never aborts, but the `R_X86_64_REX_GOTPCRELX` arm indexes
`section_bytes[offset - 2]` guarded only by `offset ≥ 3`, not by the slice
length: on the empty section with offset 3 the lookup aborts out of
bounds instead of returning `None`. -/
theorem c2_decider_aborts_on_short_rex_gotpcrelx :
    Relaxation.new R_X86_64_REX_GOTPCRELX [] 3
      ⟨false, false, false, false, false⟩ ⟨false, true⟩ ⟨true⟩ = .oob := by
  decide

/-- C4: the IFUNC gate — whenever `IFUNC` is among the value flags the
Decider maps `R_X86_64_PC32` to the `(NoOp, R_X86_64_PLT32)` redirection
and every other relocation kind to `None`, regardless of the remaining
value flags, the output kind and the section flags. -/
theorem c4_ifunc_gate (rk : Nat) (bytes : List Nat) (off : Nat) (vf : ValueFlags)
    (out : OutputKind) (sf : SectionFlags) (h : vf.ifunc = true) :
    Relaxation.new rk bytes off vf out sf =
      .ok (if rk = R_X86_64_PC32 then some ⟨.NoOp, R_X86_64_PLT32⟩ else none) := by
  simp only [Relaxation.new, h, if_true]
  split <;> rfl

/-- Witness for C4 at a concrete input: all other flags set, relocatable
non-executable output, non-executable section. -/
theorem c4_ifunc_gate_witness :
    Relaxation.new R_X86_64_PC32 [] 0 ⟨true, true, true, true, true⟩ ⟨true, false⟩
      ⟨false⟩ = .ok (some ⟨.NoOp, R_X86_64_PLT32⟩) := by
  have h := c4_ifunc_gate R_X86_64_PC32 [] 0 ⟨true, true, true, true, true⟩
    ⟨true, false⟩ ⟨false⟩ rfl
  simpa using h

/-- C5 counterexample: with a relocatable output, the `ABSOLUTE` value flag
(no `IFUNC`), an executable section and the mov pattern, the Decider
returns the `RexMovIndirectToAbsolute` relaxation — neither `None` nor the
IFUNC redirection — because the `is_absolute` predicate does not consult
the output kind. -/
theorem c5_relocatable_counterexample :
    Relaxation.new R_X86_64_REX_GOTPCRELX [0x48, 0x8b, 0x00] 3
      ⟨false, true, false, false, false⟩ ⟨true, false⟩ ⟨true⟩ =
      .ok (some ⟨.RexMovIndirectToAbsolute, R_X86_64_32⟩) ∧
    ¬(Relaxation.new R_X86_64_REX_GOTPCRELX [0x48, 0x8b, 0x00] 3
        ⟨false, true, false, false, false⟩ ⟨true, false⟩ ⟨true⟩ = .ok none ∨
      Relaxation.new R_X86_64_REX_GOTPCRELX [0x48, 0x8b, 0x00] 3
        ⟨false, true, false, false, false⟩ ⟨true, false⟩ ⟨true⟩ =
        .ok (some ⟨.NoOp, R_X86_64_PLT32⟩)) := by
  decide

/-- C6 counterexample: the scenario quantifies over every flag set
containing `CAN_BYPASS_GOT`, but if `IFUNC` is also present the IFUNC gate
fires first and the Decider returns `None` rather than the claimed
`(TlsGdToLocalExec, R_X86_64_TPOFF32)` even on the exact TLS-GD pattern. -/
theorem c6_tlsgd_ifunc_counterexample :
    Relaxation.new R_X86_64_TLSGD
      [0x66, 0x48, 0x8d, 0x3d, 0, 0, 0, 0, 0x66, 0x66, 0x48, 0xe8] 4
      ⟨false, false, false, true, true⟩ ⟨false, true⟩ ⟨true⟩ = .ok none ∧
    (Res.ok none : Res (Option Relaxation)) ≠
      .ok (some ⟨.TlsGdToLocalExec, R_X86_64_TPOFF32⟩) := by
  decide

/-- C7: scenario S2 — for `R_X86_64_REX_GOTPCRELX` at offset 3 into
`[0x48, 0x8b, 0xae]` with value flags `{ABSOLUTE}`, a static non-relocatable
executable output and an executable section, the Decider returns
`(RexMovIndirectToAbsolute, R_X86_64_32)` and the Rewriter produces exactly
`[0x48, 0xc7, 0xc5]` and zeroes the (initially nonzero) addend. -/
theorem c7_rex_mov_absolute_scenario :
    Relaxation.new R_X86_64_REX_GOTPCRELX [0x48, 0x8b, 0xae] 3
      ⟨false, true, false, false, false⟩ ⟨false, true⟩ ⟨true⟩ =
      .ok (some ⟨.RexMovIndirectToAbsolute, R_X86_64_32⟩) ∧
    RelaxationKind.apply .RexMovIndirectToAbsolute ⟨[0x48, 0x8b, 0xae], 3, 0x55, .Normal⟩ =
      .ok ⟨[0x48, 0xc7, 0xc5], 3, 0, .Normal⟩ := by
  decide

/-- C3: paired-relocation atomicity — for every relaxation kind and every
input state, if `apply` returns normally with a strictly larger
`offset_in_section`, the same call has set `next_modifier` to
`SkipNextRelocation`; no execution leaves the offset advanced while the
modifier remains `Normal`. -/
theorem c3_offset_advance_sets_skip (k : RelaxationKind) (s s' : ApplyState)
    (h : k.apply s = .ok s')
    (hlt : s.offset_in_section < s'.offset_in_section) :
    s'.next_modifier = .SkipNextRelocation := by
  cases k with
  | MovIndirectToLea =>
    obtain ⟨bs, rfl⟩ := movLea_ok s s' h
    exact absurd hlt (by simp)
  | MovIndirectToAbsolute =>
    obtain ⟨bs, rfl⟩ := movAbs_ok s s' h
    exact absurd hlt (by simp)
  | RexMovIndirectToAbsolute =>
    rw [show RelaxationKind.apply .RexMovIndirectToAbsolute s =
      rexToAbs 0xc7 0xc0 s.uoff s from rfl] at h
    obtain ⟨bs, rfl⟩ := rexToAbs_ok _ _ _ _ _ h
    exact absurd hlt (by simp)
  | RexSubIndirectToAbsolute =>
    rw [show RelaxationKind.apply .RexSubIndirectToAbsolute s =
      rexToAbs 0x81 0xe8 s.uoff s from rfl] at h
    obtain ⟨bs, rfl⟩ := rexToAbs_ok _ _ _ _ _ h
    exact absurd hlt (by simp)
  | RexCmpIndirectToAbsolute =>
    rw [show RelaxationKind.apply .RexCmpIndirectToAbsolute s =
      rexToAbs 0x81 0xf8 s.uoff s from rfl] at h
    obtain ⟨bs, rfl⟩ := rexToAbs_ok _ _ _ _ _ h
    exact absurd hlt (by simp)
  | CallIndirectToRelative =>
    obtain ⟨bs, rfl⟩ := callRel_ok s s' h
    exact absurd hlt (by simp)
  | NoOp =>
    obtain rfl := noOp_ok s s' h
    exact absurd hlt (by simp)
  | TlsGdToLocalExec =>
    obtain ⟨bs, rfl⟩ := tlsGdLE_ok s s' h
    rfl
  | TlsGdToLocalExecLarge =>
    obtain ⟨bs, rfl⟩ := tlsGdLELarge_ok s s' h
    rfl
  | TlsGdToInitialExec =>
    obtain ⟨bs, rfl⟩ := tlsGdIE_ok s s' h
    rfl
  | TlsLdToLocalExec =>
    obtain ⟨bs, n, rfl⟩ := tlsLd_ok s s' h
    rfl

/-- C10: the addend frame effect of the Rewriter — on every normal return,
`MovIndirectToLea`, `CallIndirectToRelative`, `TlsLdToLocalExec` (both
sub-forms) and `NoOp` leave the addend cell unchanged; the four
`*IndirectToAbsolute` rewrites and both TLS-GD-to-local-exec rewrites zero
it; and `TlsGdToInitialExec` alone sets it to `2 ^ 64 − 12`. -/
theorem c10_addend_frame_effect (k : RelaxationKind) (s s' : ApplyState)
    (h : k.apply s = .ok s') :
    s'.addend = (match k with
      | .MovIndirectToLea => s.addend
      | .CallIndirectToRelative => s.addend
      | .TlsLdToLocalExec => s.addend
      | .NoOp => s.addend
      | .TlsGdToInitialExec => U64 - 12
      | _ => 0) := by
  cases k with
  | MovIndirectToLea =>
    obtain ⟨bs, rfl⟩ := movLea_ok s s' h
    rfl
  | MovIndirectToAbsolute =>
    obtain ⟨bs, rfl⟩ := movAbs_ok s s' h
    rfl
  | RexMovIndirectToAbsolute =>
    rw [show RelaxationKind.apply .RexMovIndirectToAbsolute s =
      rexToAbs 0xc7 0xc0 s.uoff s from rfl] at h
    obtain ⟨bs, rfl⟩ := rexToAbs_ok _ _ _ _ _ h
    rfl
  | RexSubIndirectToAbsolute =>
    rw [show RelaxationKind.apply .RexSubIndirectToAbsolute s =
      rexToAbs 0x81 0xe8 s.uoff s from rfl] at h
    obtain ⟨bs, rfl⟩ := rexToAbs_ok _ _ _ _ _ h
    rfl
  | RexCmpIndirectToAbsolute =>
    rw [show RelaxationKind.apply .RexCmpIndirectToAbsolute s =
      rexToAbs 0x81 0xf8 s.uoff s from rfl] at h
    obtain ⟨bs, rfl⟩ := rexToAbs_ok _ _ _ _ _ h
    rfl
  | CallIndirectToRelative =>
    obtain ⟨bs, rfl⟩ := callRel_ok s s' h
    rfl
  | NoOp =>
    obtain rfl := noOp_ok s s' h
    rfl
  | TlsGdToLocalExec =>
    obtain ⟨bs, rfl⟩ := tlsGdLE_ok s s' h
    rfl
  | TlsGdToLocalExecLarge =>
    obtain ⟨bs, rfl⟩ := tlsGdLELarge_ok s s' h
    rfl
  | TlsGdToInitialExec =>
    obtain ⟨bs, rfl⟩ := tlsGdIE_ok s s' h
    rfl
  | TlsLdToLocalExec =>
    obtain ⟨bs, n, rfl⟩ := tlsLd_ok s s' h
    rfl

/-- Witness for C3 at a concrete input: the TLS-GD-to-local-exec rewrite
advances the offset from 4 to 12 and indeed sets the skip directive. -/
theorem c3_offset_advance_sets_skip_witness :
    RelaxationKind.apply .TlsGdToLocalExec
      ⟨[0x66, 0x48, 0x8d, 0x3d, 0, 0, 0, 0, 0x66, 0x66, 0x48, 0xe8], 4, 7, .Normal⟩ =
      .ok ⟨[0x64, 0x48, 0x8b, 0x04, 0x25, 0, 0, 0, 0, 0x48, 0x8d, 0x80], 12, 0,
        .SkipNextRelocation⟩ ∧
    (⟨[0x64, 0x48, 0x8b, 0x04, 0x25, 0, 0, 0, 0, 0x48, 0x8d, 0x80], 12, 0,
      .SkipNextRelocation⟩ : ApplyState).next_modifier = .SkipNextRelocation :=
  ⟨by decide, c3_offset_advance_sets_skip .TlsGdToLocalExec
    ⟨[0x66, 0x48, 0x8d, 0x3d, 0, 0, 0, 0, 0x66, 0x66, 0x48, 0xe8], 4, 7, .Normal⟩
    ⟨[0x64, 0x48, 0x8b, 0x04, 0x25, 0, 0, 0, 0, 0x48, 0x8d, 0x80], 12, 0,
      .SkipNextRelocation⟩ (by decide) (by decide)⟩

/-- Witness for C10 at a concrete input: `TlsGdToInitialExec` stores
`2 ^ 64 − 12` into the addend cell. -/
theorem c10_addend_frame_effect_witness :
    RelaxationKind.apply .TlsGdToInitialExec
      ⟨[0x66, 0x48, 0x8d, 0x3d, 0, 0, 0, 0, 0x66, 0x66, 0x48, 0xe8], 4, 5, .Normal⟩ =
      .ok ⟨[0x64, 0x48, 0x8b, 0x04, 0x25, 0, 0, 0, 0, 0x48, 0x03, 0x05], 12, U64 - 12,
        .SkipNextRelocation⟩ ∧
    (⟨[0x64, 0x48, 0x8b, 0x04, 0x25, 0, 0, 0, 0, 0x48, 0x03, 0x05], 12, U64 - 12,
      .SkipNextRelocation⟩ : ApplyState).addend = U64 - 12 :=
  ⟨by decide, c10_addend_frame_effect .TlsGdToInitialExec
    ⟨[0x66, 0x48, 0x8d, 0x3d, 0, 0, 0, 0, 0x66, 0x66, 0x48, 0xe8], 4, 5, .Normal⟩
    ⟨[0x64, 0x48, 0x8b, 0x04, 0x25, 0, 0, 0, 0, 0x48, 0x03, 0x05], 12, U64 - 12,
      .SkipNextRelocation⟩ (by decide)⟩

/-- C5 (amended): the relocatable-output invariant restricted to the inputs
the code actually gates on output kind — for a relocatable output whose value
flags contain neither `ABSOLUTE` nor `CAN_BYPASS_GOT` and which is not also
an executable, the only relaxation the Decider can return is the IFUNC
`PC32 → PLT32` redirection (and then `IFUNC` was set and the relocation kind
was `R_X86_64_PC32`). -/
theorem c5_relocatable_amended (rk : Nat) (bytes : List Nat) (off : Nat)
    (vf : ValueFlags) (out : OutputKind) (sf : SectionFlags) (r : Relaxation)
    (hrel : out.is_relocatable = true) (habs : vf.absolute = false)
    (hbyp : vf.can_bypass_got = false) (hexe : out.is_executable = false)
    (h : Relaxation.new rk bytes off vf out sf = .ok (some r)) :
    vf.ifunc = true ∧ rk = R_X86_64_PC32 ∧ r = ⟨.NoOp, R_X86_64_PLT32⟩ := by
  by_cases hif : vf.ifunc = true
  · by_cases hrk : rk = R_X86_64_PC32
    · simp only [Relaxation.new, hif, if_true, hrk] at h
      exact ⟨hif, hrk, (Option.some.inj (Res.ok.inj h)).symm⟩
    · simp only [Relaxation.new, hif, if_true, hrk, if_false] at h
      exact absurd (Res.ok.inj h) (by simp)
  · rw [Bool.not_eq_true] at hif
    simp [Relaxation.new, hif, habs, hbyp, hrel, hexe] at h
    split at h
    · exact absurd h (by simp)
    split at h
    · split at h
      · exact absurd h (by simp)
      · rcases optCase_ok h with ⟨-, h⟩ | ⟨b1, -, h⟩
        · exact absurd h (by simp)
        rcases optCase_ok h with ⟨-, h⟩ | ⟨rex, -, h⟩
        · exact absurd h (by simp)
        exact absurd h (by simp)
    · exact absurd h (by simp)

/-- Witness for C5 (amended) at a concrete input: with relocatable
non-executable output and only the `IFUNC` flag set, a `R_X86_64_PC32`
relocation yields the redirection, and the amended theorem applies. -/
theorem c5_relocatable_amended_witness :
    (⟨false, false, false, false, true⟩ : ValueFlags).ifunc = true ∧
    R_X86_64_PC32 = R_X86_64_PC32 ∧
    (⟨.NoOp, R_X86_64_PLT32⟩ : Relaxation) = ⟨.NoOp, R_X86_64_PLT32⟩ :=
  c5_relocatable_amended R_X86_64_PC32 [] 0 ⟨false, false, false, false, true⟩
    ⟨true, false⟩ ⟨false⟩ ⟨.NoOp, R_X86_64_PLT32⟩ (by decide) (by decide) (by decide)
    (by decide) (by decide)

/-- C6 (amended): scenario S4 with the IFUNC oversight repaired — for
`R_X86_64_TLSGD` with `CAN_BYPASS_GOT` set and `IFUNC` absent, executable
output, executable section, and the regular TLS-GD byte pattern around the
offset, the Decider returns `(TlsGdToLocalExec, R_X86_64_TPOFF32)` and the
Rewriter overwrites the twelve bytes `[offset-4, offset+8)` with the
local-exec template, advances the offset by exactly 8, zeroes the addend and
signals skip-next. -/
theorem c6_tlsgd_scenario_amended (bytes : List Nat) (off a0 : Nat)
    (m0 : RelocationModifier) (vf : ValueFlags) (out : OutputKind) (sf : SectionFlags)
    (hbyp : vf.can_bypass_got = true) (hif : vf.ifunc = false)
    (hexe : out.is_executable = true) (hsf : sf.execinstr = true)
    (h4 : 4 ≤ off) (hlen : off + 8 ≤ bytes.length) (hu : bytes.length < U64)
    (hp1 : (bytes.drop (off - 4)).take 4 = [0x66, 0x48, 0x8d, 0x3d])
    (hp2 : (bytes.drop (off + 4)).take 4 = [0x66, 0x66, 0x48, 0xe8]) :
    Relaxation.new R_X86_64_TLSGD bytes off vf out sf =
      .ok (some ⟨.TlsGdToLocalExec, R_X86_64_TPOFF32⟩) ∧
    RelaxationKind.apply .TlsGdToLocalExec ⟨bytes, off, a0, m0⟩ =
      .ok ⟨bytes.take (off - 4) ++
        [0x64, 0x48, 0x8b, 0x04, 0x25, 0, 0, 0, 0, 0x48, 0x8d, 0x80] ++
        bytes.drop (off + 8), off + 8, 0, .SkipNextRelocation⟩ := by
  have hoff : off < U64 := by unfold U64 at hu ⊢; omega
  have hmod : off % U64 = off := Nat.mod_eq_of_lt hoff
  have hws4 : wsub off 4 = off - 4 := wsub_eq_sub off 4 hoff h4
  have hwa4 : wadd off 4 = off + 4 := wadd_eq_add off 4 (by unfold U64 at hu ⊢; omega)
  have hwa8 : wadd off 8 = off + 8 := wadd_eq_add off 8 (by unfold U64 at hu ⊢; omega)
  have hs1 : sliceGet bytes (wsub off 4) off = some [0x66, 0x48, 0x8d, 0x3d] := by
    rw [hws4]
    unfold sliceGet
    rw [if_pos ⟨by omega, by omega⟩]
    have h44 : off - (off - 4) = 4 := by omega
    rw [h44, hp1]
  have hs2 : sliceGet bytes (wadd off 4) (wadd off 8) = some [0x66, 0x66, 0x48, 0xe8] := by
    rw [hwa4, hwa8]
    unfold sliceGet
    rw [if_pos ⟨by omega, by omega⟩]
    have h84 : off + 8 - (off + 4) = 4 := by omega
    rw [h84, hp2]
  have hid : TlsGdForm.identify bytes off = some .Regular := by
    unfold TlsGdForm.identify
    rw [if_pos ⟨hs1, hs2⟩]
  constructor
  · simp only [Relaxation.new, hif, hbyp, hexe, hsf, hmod, hid, R_X86_64_TLSGD,
      R_X86_64_PC32, R_X86_64_REX_GOTPCRELX, R_X86_64_GOTPCRELX, R_X86_64_GOTPCREL,
      R_X86_64_GOTTPOFF, R_X86_64_PLT32, R_X86_64_PLTOFF64, R_X86_64_TLSLD,
      Bool.not_true, Bool.false_eq_true, if_false, if_true]
    rw [if_neg (show ¬((19 : Nat) = 42) by decide)]
    rw [if_neg (show ¬((19 : Nat) = 41) by decide)]
    rw [if_neg (fun h => absurd h.1 (by decide))]
    rw [if_neg (fun h => absurd h.1 (by decide))]
    rw [if_neg (fun h => absurd h.1 (by decide))]
    rw [if_neg (fun h => absurd h.1 (by decide))]
    rw [if_pos (⟨trivial, trivial, trivial⟩ : True ∧ True ∧ True)]
    rfl
  · have huoff : (⟨bytes, off, a0, m0⟩ : ApplyState).uoff = off := by
      unfold ApplyState.uoff
      exact hmod
    have e : RelaxationKind.apply .TlsGdToLocalExec ⟨bytes, off, a0, m0⟩ =
        optCase (writeRange bytes (wsub (⟨bytes, off, a0, m0⟩ : ApplyState).uoff 4)
          (wadd (⟨bytes, off, a0, m0⟩ : ApplyState).uoff 8)
          [0x64, 0x48, 0x8b, 0x04, 0x25, 0, 0, 0, 0, 0x48, 0x8d, 0x80]) .oob (fun bs =>
          .ok ⟨bs, wadd off 8, 0, .SkipNextRelocation⟩) := rfl
    have hwr : writeRange bytes (off - 4) (off + 8)
        [0x64, 0x48, 0x8b, 0x04, 0x25, 0, 0, 0, 0, 0x48, 0x8d, 0x80] =
        some (bytes.take (off - 4) ++
          [0x64, 0x48, 0x8b, 0x04, 0x25, 0, 0, 0, 0, 0x48, 0x8d, 0x80] ++
          bytes.drop (off + 8)) := by
      unfold writeRange
      rw [if_pos ⟨by omega, by omega, by simp; omega⟩]
    rw [e, huoff, hws4, hwa8, hwr]
    simp only [optCase, hwa8]

/-- Witness for C6 (amended) at the concrete S4 instance: the 12-byte
regular TLS-GD pattern at offset 4 with `CAN_BYPASS_GOT` only. -/
theorem c6_tlsgd_scenario_amended_witness :
    Relaxation.new R_X86_64_TLSGD
      [0x66, 0x48, 0x8d, 0x3d, 0, 0, 0, 0, 0x66, 0x66, 0x48, 0xe8] 4
      ⟨false, false, false, true, false⟩ ⟨false, true⟩ ⟨true⟩ =
      .ok (some ⟨.TlsGdToLocalExec, R_X86_64_TPOFF32⟩) ∧
    RelaxationKind.apply .TlsGdToLocalExec
      ⟨[0x66, 0x48, 0x8d, 0x3d, 0, 0, 0, 0, 0x66, 0x66, 0x48, 0xe8], 4, 9, .Normal⟩ =
      .ok ⟨([0x66, 0x48, 0x8d, 0x3d, 0, 0, 0, 0, 0x66, 0x66, 0x48, 0xe8] :
          List Nat).take (4 - 4) ++
        [0x64, 0x48, 0x8b, 0x04, 0x25, 0, 0, 0, 0, 0x48, 0x8d, 0x80] ++
        ([0x66, 0x48, 0x8d, 0x3d, 0, 0, 0, 0, 0x66, 0x66, 0x48, 0xe8] :
          List Nat).drop (4 + 8),
        4 + 8, 0, .SkipNextRelocation⟩ :=
  c6_tlsgd_scenario_amended [0x66, 0x48, 0x8d, 0x3d, 0, 0, 0, 0, 0x66, 0x66, 0x48, 0xe8]
    4 9 .Normal ⟨false, false, false, true, false⟩ ⟨false, true⟩ ⟨true⟩
    (by decide) (by decide) (by decide) (by decide) (by decide) (by decide) (by decide)
    (by decide) (by decide)

/-- C8: the PLT displacement round-trip — whenever the signed difference
`got − (plt + 0xb)` fits an `i32`, `write_plt_entry` succeeds on a 16-byte
buffer, the bytes outside positions 7..11 are exactly the fixed template,
and reading positions 7..11 back as a little-endian signed 32-bit integer
and adding `plt + 0xb` modulo `2 ^ 64` recovers `got`. -/
theorem c8_plt_displacement_round_trip (buf : List Nat) (got plt : Nat)
    (hbuf : buf.length = 16) (hg : got < U64) (hp : plt < U64)
    (hlo : -2 ^ 31 ≤ (got : Int) - (plt : Int) - 0xb)
    (hhi : (got : Int) - (plt : Int) - 0xb < 2 ^ 31) :
    ∃ out : List Nat,
      write_plt_entry buf got plt = .ok (.ok out) ∧
      out.take 7 = [0xf3, 0x0f, 0x1e, 0xfa, 0xf2, 0xff, 0x25] ∧
      out.drop 11 = [0x0f, 0x1f, 0x44, 0, 0] ∧
      out.length = 16 ∧
      ((plt : Int) + 0xb + readI32LE out 7) % 2 ^ 64 = (got : Int) := by
  have hv : (if wsub got (wadd plt 0xb) < 2 ^ 63 then ((wsub got (wadd plt 0xb) : Nat) : Int)
      else ((wsub got (wadd plt 0xb) : Nat) : Int) - 2 ^ 64) =
      (got : Int) - (plt : Int) - 0xb := by
    unfold wsub wadd U64 at *
    split <;> omega
  unfold write_plt_entry
  rw [if_pos hbuf]
  simp only [hv]
  rw [if_pos ⟨hlo, hhi⟩]
  refine ⟨_, rfl, rfl, rfl, rfl, ?_⟩
  have hxlt : (((got : Int) - (plt : Int) - 0xb) % 2 ^ 32).toNat < 2 ^ 32 := by omega
  rw [List.append_assoc, readI32LE_leBytes4 _ _ _ (by rfl) hxlt]
  split <;> unfold U64 at * <;> omega

/-- Witness for C8 at the concrete S3 instance `got = 0x4020`,
`plt = 0x1000`: the displacement fits and the round-trip holds. -/
theorem c8_plt_displacement_round_trip_witness :
    ∃ out : List Nat,
      write_plt_entry (List.replicate 16 0) 0x4020 0x1000 = .ok (.ok out) ∧
      out.take 7 = [0xf3, 0x0f, 0x1e, 0xfa, 0xf2, 0xff, 0x25] ∧
      out.drop 11 = [0x0f, 0x1f, 0x44, 0, 0] ∧
      out.length = 16 ∧
      (((0x1000 : Nat) : Int) + 0xb + readI32LE out 7) % 2 ^ 64 = ((0x4020 : Nat) : Int) :=
  c8_plt_displacement_round_trip (List.replicate 16 0) 0x4020 0x1000 (by decide) (by decide)
    (by decide) (by decide) (by decide)

/-- C9: `write_plt_entry` fails exactly when the signed 64-bit displacement
`got − (plt + 0xb)` (computed with wrapping u64 subtraction, as the source
does) lies outside the `i32` range, and the only error it ever produces is
`PltGotTooFar`. -/
theorem c9_plt_error_characterization (buf : List Nat) (got plt : Nat)
    (hbuf : buf.length = 16) (hg : got < U64) (hp : plt < U64) :
    (write_plt_entry buf got plt = .ok (.error .PltGotTooFar) ↔
      (signedDisp got plt < -2 ^ 31 ∨ 2 ^ 31 ≤ signedDisp got plt)) ∧
    ∀ e : PltError, write_plt_entry buf got plt = .ok (.error e) → e = .PltGotTooFar := by
  have hv : (if wsub got (wadd plt 0xb) < 2 ^ 63 then ((wsub got (wadd plt 0xb) : Nat) : Int)
      else ((wsub got (wadd plt 0xb) : Nat) : Int) - 2 ^ 64) = signedDisp got plt := by
    unfold signedDisp wsub wadd U64 at *
    split <;> omega
  constructor
  · unfold write_plt_entry
    rw [if_pos hbuf]
    simp only [hv]
    constructor
    · intro h
      by_cases hc : -2 ^ 31 ≤ signedDisp got plt ∧ signedDisp got plt < 2 ^ 31
      · rw [if_pos hc] at h
        exact absurd h (by simp)
      · omega
    · intro hd
      rw [if_neg (by omega)]
  · intro e _
    cases e
    rfl

/-- Witness for C9 at the concrete S6 instance `got = 0`,
`plt = 0x8000_0000`: the displacement overflows `i32` downward. -/
theorem c9_plt_error_characterization_witness :
    (write_plt_entry (List.replicate 16 0) 0 0x80000000 = .ok (.error .PltGotTooFar) ↔
      (signedDisp 0 0x80000000 < -2 ^ 31 ∨ 2 ^ 31 ≤ signedDisp 0 0x80000000)) ∧
    ∀ e : PltError, write_plt_entry (List.replicate 16 0) 0 0x80000000 =
      .ok (.error e) → e = .PltGotTooFar :=
  c9_plt_error_characterization (List.replicate 16 0) 0 0x80000000 (by decide) (by decide)
    (by decide)

end Wild
